import Mathlib

/-!
Shallow embedding of the debate-engine core of the insight-synergy-council
repository: `debate_engine/moderator.py`, `debate_engine/consensus.py`,
`utils/bias_detection.py` and `utils/model_router.py`, together with
theorems settling the specification claims about them.

Machine reals of the source are modelled by `ℚ` (exact rational
arithmetic); the one genuinely irrational operation, `numpy.std`, is
modelled over `ℝ` with `Real.sqrt`.  Python substring containment
(`needle in hay`) is modelled on character lists, and Python string
`split`/`strip`/`lower` by their Lean counterparts.
-/

namespace InsightSynergy

/-- Python substring test: `needle in hay` on strings. -/
def pyIn (needle hay : String) : Bool :=
  decide (List.IsInfix needle.toList hay.toList)

/-- Python `str.lower()`. -/
def pyLower (s : String) : String :=
  s.map Char.toLower

/-- Python slice `l[-n:]`: the last `n` elements (all of them when fewer). -/
def lastSlice (n : Nat) (l : List α) : List α :=
  l.drop (l.length - n)

/-- The phases of `DebatePhase` in `moderator.py`. -/
inductive DebatePhase where
  | initializationPhase
  | openingStatements
  | adversarialExchange
  | evidenceReview
  | consensusBuilding
  | finalSynthesis
deriving DecidableEq, Repr

/-- The `DebateArgument` dataclass of `moderator.py`. -/
structure DebateArgument where
  agent_name : String
  argument : String
  evidence : List String
  confidence : ℚ
  timestamp : ℚ
  round_number : Nat
  response_to : Option String := none
deriving DecidableEq, Repr

/-- The `DebateMetrics` dataclass of `moderator.py`. -/
structure DebateMetrics where
  conflict_intensity : ℚ
  consensus_level : ℚ
  bias_score : ℚ
  evidence_strength : ℚ
  participation_balance : ℚ
deriving DecidableEq, Repr

/-- The mutable fields of a `DebateModerator` instance. -/
structure ModeratorState where
  max_rounds : Nat
  conflict_threshold : ℚ
  debate_log : List DebateArgument
  current_round : Nat
  phase : DebatePhase
deriving DecidableEq, Repr

/-- Error kind named by the spec for initiation-time validation; the code
under `src/` defines no such class, so the embedded `initiate_debate` can
only ever take the `ok` branch of this type. -/
inductive ConfigError where
  | invalidConfiguration (msg : String)
deriving DecidableEq, Repr

/-- The debate context dictionary returned by `initiate_debate`.  The
`agents` mapping is kept polymorphic in the agent object type `α`; the
external clock value used for `start_time` and the session id is passed
in as `now`. -/
structure DebateContext (α : Type) where
  question : String
  agents : List (String × α)
  start_time : ℚ
  debate_id : String
deriving Repr

/-- Embedding of `DebateModerator.initiate_debate`: resets the log, the
round counter and the phase, and unconditionally returns a fresh debate
context (the source performs no roster validation, so no
`ConfigError.invalidConfiguration` is ever produced). -/
def initiateDebate (st : ModeratorState) (question : String)
    (agents : List (String × α)) (now : ℚ) :
    Except ConfigError (ModeratorState × DebateContext α) :=
  Except.ok
    ({ st with debate_log := [], current_round := 0,
               phase := DebatePhase.initializationPhase },
     { question := question, agents := agents, start_time := now,
       debate_id := "debate_" ++ toString now.floor })

/-- The `conflict_keywords` list of `_calculate_conflict_intensity`. -/
def conflictKeywords : List String :=
  ["disagree", "wrong", "incorrect", "flawed", "however", "but",
   "contrary", "opposite", "challenge", "dispute", "refute"]

/-- One unordered pair of round arguments counts as disagreeing when some
conflict keyword occurs in either argument's lowercased text. -/
def pairDisagrees (a b : DebateArgument) : Bool :=
  conflictKeywords.any fun k =>
    pyIn k (pyLower a.argument) || pyIn k (pyLower b.argument)

/-- All unordered pairs `(l[i], l[j])` with `i < j`, in the nested-loop
order of the source. -/
def ordPairs : List α → List (α × α)
  | [] => []
  | x :: xs => xs.map (fun y => (x, y)) ++ ordPairs xs

/-- Embedding of `DebateModerator._calculate_conflict_intensity`. -/
def conflictIntensity (args : List DebateArgument) : ℚ :=
  if args.length < 2 then 1
  else
    let total := (ordPairs args).length
    let dis := ((ordPairs args).filter fun p => pairDisagrees p.1 p.2).length
    if total = 0 then 1
    else min 10 (1 + ((dis : ℚ) / (total : ℚ)) * 9)

/-- Embedding of `DebateModerator._calculate_debate_metrics`.  The three
helper methods `_calculate_bias_score`, `_calculate_evidence_strength`
and `_calculate_participation_balance` are referenced by the source but
defined nowhere in the repository; they are passed in as parameters
`fb`, `fe`, `fp`, so every theorem below holds for every way of
supplying the missing helpers. -/
def calcDebateMetrics (fb fe fp : List DebateArgument → ℚ)
    (args : List DebateArgument) : DebateMetrics :=
  { conflict_intensity := conflictIntensity args,
    consensus_level := 1 - conflictIntensity args / 10,
    bias_score := fb args,
    evidence_strength := fe args,
    participation_balance := fp args }

/-- Embedding of `DebateModerator.should_continue_debate`. -/
def shouldContinueDebate (st : ModeratorState) (m : DebateMetrics) : Bool :=
  if st.max_rounds ≤ st.current_round then false
  else if st.conflict_threshold < m.conflict_intensity ∧
          m.consensus_level < 0.6 then true
  else if 0.8 < m.consensus_level then false
  else decide (st.current_round < st.max_rounds)

/-- Entries that `_build_agent_context` draws from: nothing when the log
is empty, otherwise the last six log entries with the agent's own entries
filtered out. -/
def contextEntries (log : List DebateArgument) (name : String) :
    List DebateArgument :=
  if log.isEmpty then []
  else (lastSlice 6 log).filter fun a => a.agent_name ≠ name

/-- Rendering of one log entry inside the context string. -/
def renderEntry (a : DebateArgument) : String :=
  "\n" ++ a.agent_name ++ ": " ++ a.argument ++ "\n" ++
    (if a.evidence.isEmpty then ""
     else "Evidence: " ++ String.intercalate ", " (a.evidence.take 2) ++ "\n")

/-- Embedding of `DebateModerator._build_agent_context`. -/
def buildAgentContext (log : List DebateArgument) (name : String) : String :=
  if log.isEmpty then ""
  else (contextEntries log name).foldl (fun acc a => acc ++ renderEntry a)
    "Recent opponent arguments:\n"

/-- Payload of a successful external agent invocation (spec interface
section: `invoke(role_id, prompt_text, session_state) → {text, evidence?,
confidence?}`). -/
structure ArgPayload where
  text : String
  evidence : List String
  confidence : Option ℚ
deriving DecidableEq, Repr

/-- Outcome of one external agent invocation: a transport/timeout error,
a missing/empty response, or a payload. -/
inductive InvokeOutcome where
  | failure (msg : String)
  | emptyResponse
  | success (p : ArgPayload)
deriving DecidableEq, Repr

/-- Modelled from the spec: `DebateModerator._get_agent_argument` is
called by `facilitate_round` but defined nowhere in the repository.  Per
the spec's failure semantics, an invocation error is caught per-agent
and a missing/empty response yields nothing, so the wrapper returns
`none` in both cases and the payload otherwise; no error escapes it. -/
def getAgentArgument (o : InvokeOutcome) : Option ArgPayload :=
  match o with
  | InvokeOutcome.failure _ => none
  | InvokeOutcome.emptyResponse => none
  | InvokeOutcome.success p => some p

/-- The `DebateArgument` appended by `facilitate_round` for a payload:
confidence defaults to `0.5` when the agent omits one. -/
def mkRoundArgument (name : String) (p : ArgPayload) (now : ℚ)
    (roundNo : Nat) : DebateArgument :=
  { agent_name := name, argument := p.text, evidence := p.evidence,
    confidence := p.confidence.getD 0.5, timestamp := now,
    round_number := roundNo }

/-- The agent loop of `facilitate_round`, threading the debate log
through the roster in order.  Returns the final log, the round's
collected arguments, and a trace recording, per agent, the context
entries the agent's prompt was built from at the moment of its
invocation.  `invoke` is the external collaborator mapping an agent
object, the context string and the question to an invocation outcome. -/
def roundFold (invoke : α → String → String → InvokeOutcome)
    (question : String) (now : ℚ) (roundNo : Nat) :
    List (String × α) → List DebateArgument →
    List DebateArgument × List DebateArgument ×
      List (String × List DebateArgument)
  | [], log => (log, [], [])
  | (name, agent) :: rest, log =>
    let es := contextEntries log name
    let ctx := buildAgentContext log name
    match getAgentArgument (invoke agent ctx question) with
    | none =>
      let r := roundFold invoke question now roundNo rest log
      (r.1, r.2.1, (name, es) :: r.2.2)
    | some p =>
      let arg := mkRoundArgument name p now roundNo
      let r := roundFold invoke question now roundNo rest (log ++ [arg])
      (r.1, arg :: r.2.1, (name, es) :: r.2.2)

/-- Embedding of `DebateModerator.facilitate_round`: increments the
round counter, collects one argument per responding agent (skipping
agents whose invocation fails or returns nothing), appends them to the
log, and computes the round metrics over the collected arguments.  The
function is total: no error is propagated to the caller. -/
def facilitateRound (invoke : α → String → String → InvokeOutcome)
    (fb fe fp : List DebateArgument → ℚ) (st : ModeratorState)
    (ctx : DebateContext α) (now : ℚ) :
    ModeratorState × List DebateArgument × DebateMetrics :=
  let roundNo := st.current_round + 1
  let r := roundFold invoke ctx.question now roundNo ctx.agents st.debate_log
  ({ st with debate_log := r.1, current_round := roundNo },
   r.2.1, calcDebateMetrics fb fe fp r.2.1)

/-- The per-agent context trace of one `facilitate_round` call: for each
roster agent in order, the list of log entries its context string was
built from. -/
def roundContextTrace (invoke : α → String → String → InvokeOutcome)
    (st : ModeratorState) (ctx : DebateContext α) (now : ℚ) :
    List (String × List DebateArgument) :=
  (roundFold invoke ctx.question now (st.current_round + 1) ctx.agents
    st.debate_log).2.2

/-- The `Evidence` dataclass of `consensus.py`; only the number of data
points matters to scoring, and they are kept as strings. -/
structure EvidenceT where
  source : String
  data_points : List String
  confidence : ℚ
  agent_source : String
deriving DecidableEq, Repr

/-- The `Claim` dataclass of `consensus.py`; the `agent_votes` dict is an
association list with unique agent keys. -/
structure ClaimT where
  statement : String
  supporting_evidence : List EvidenceT
  agent_votes : List (String × ℚ)
  final_score : ℚ := 0
deriving DecidableEq, Repr

/-- The weight configuration of a `BordaConsensusBuilder` instance. -/
structure BordaBuilder where
  evidence_weight : ℚ := 0.4
  vote_weight : ℚ := 0.6
deriving DecidableEq, Repr

/-- The Python exception that an attribute lookup on a missing method
raises. -/
inductive PyError where
  | attributeError (attr : String)
deriving DecidableEq, Repr

/-- Python `list.index` restricted to its defined case: the index of the
first occurrence of `x` (0 when absent, which the source never hits). -/
def pyIndex (x : ℚ) : List ℚ → Nat
  | [] => 0
  | y :: ys => if y = x then 0 else pyIndex x ys + 1

/-- Sentence filter of `_extract_claims`: the argument text is split on
the delimiter `". "` and a sentence survives when its trimmed length
exceeds 20 characters. -/
def argHasLongSentence (a : DebateArgument) : Bool :=
  (a.argument.splitOn ". ").any fun s => decide (20 < s.trim.length)

/-- Embedding of `BordaConsensusBuilder._extract_claims` with Python
attribute-lookup semantics: the helper methods `_extract_evidence` and
`_find_similar_claim` that the loop body invokes are defined nowhere in
the repository, so the first sentence surviving the noise filter raises
`AttributeError` (the `_extract_evidence` lookup is evaluated first);
when no sentence survives, the loop completes with an empty claim
list. -/
def extractClaimsE : List DebateArgument → Except PyError (List ClaimT)
  | [] => Except.ok []
  | a :: rest =>
    if argHasLongSentence a then
      Except.error (PyError.attributeError "_extract_evidence")
    else extractClaimsE rest

/-- Per-claim body of `_calculate_borda_scores`: each voter's rank is the
0-based first position of its confidence in the descending-sorted
confidence sequence, its points are `total_voters − rank`, and the sum of
`points × confidence` is divided by the voter count; zero voters score
0. -/
def bordaScoreOf (votes : List (String × ℚ)) : ℚ :=
  let n := votes.length
  if n = 0 then 0
  else
    let sortedVotes :=
      List.insertionSort (fun a b : ℚ => b ≤ a) (votes.map Prod.snd)
    (votes.foldl
      (fun acc pr => acc + ((n : ℚ) - (pyIndex pr.2 sortedVotes : ℚ)) * pr.2)
      0) / n

/-- Embedding of `BordaConsensusBuilder._calculate_borda_scores`. -/
def calcBordaScores (claims : List ClaimT) : List (String × ℚ) :=
  claims.map fun c => (c.statement, bordaScoreOf c.agent_votes)

/-- Embedding of `BordaConsensusBuilder._calculate_evidence_score`. -/
def calcEvidenceScore (evs : List EvidenceT) : ℚ :=
  if evs.isEmpty then 0
  else
    (evs.foldl
      (fun acc e =>
        acc + (e.confidence * 0.7 +
          min 1 ((e.data_points.length : ℚ) / 10) * 0.3))
      0) / evs.length

/-- Embedding of `BordaConsensusBuilder._weight_by_evidence`: returns the
claims with their `final_score` set together with the weighted score
association. -/
def weightByEvidence (b : BordaBuilder) (claims : List ClaimT)
    (scores : List (String × ℚ)) : List ClaimT × List (String × ℚ) :=
  let upd := claims.map fun c =>
    let borda := ((scores.lookup c.statement).getD 0)
    let ev := calcEvidenceScore c.supporting_evidence
    { c with final_score := b.vote_weight * borda + b.evidence_weight * ev }
  (upd, upd.map fun c => (c.statement, c.final_score))

/-- Population mean as `numpy.mean` computes it. -/
def npMean (l : List ℚ) : ℚ := l.sum / l.length

/-- Population variance as `numpy` computes it. -/
def npVar (l : List ℚ) : ℚ :=
  (l.map fun x => (x - npMean l) ^ 2).sum / l.length

/-- Population standard deviation `numpy.std`: the square root of the
population variance, taken in `ℝ`. -/
noncomputable def npStd (l : List ℚ) : ℝ :=
  Real.sqrt ((npVar l : ℚ) : ℝ)

/-- The contribution one claim's vote list makes inside
`_calculate_agreement_level`: `max(0, 1 − std/mean)` when the mean is
positive, else `max(0, 0) = 0`. -/
noncomputable def agreeContribution (votes : List (String × ℚ)) : ℝ :=
  let vals := votes.map Prod.snd
  max 0
    (if 0 < npMean vals then 1 - npStd vals / ((npMean vals : ℚ) : ℝ) else 0)

/-- Embedding of `BordaConsensusBuilder._calculate_agreement_level`: the
loop accumulates contributions of claims with more than one voter, and
the total is divided by the length of the whole claim list. -/
noncomputable def calcAgreementLevel (claims : List ClaimT) : ℝ :=
  if claims.isEmpty then 0
  else
    (claims.foldl
      (fun acc c =>
        if 1 < c.agent_votes.length then acc + agreeContribution c.agent_votes
        else acc)
      0) / (claims.length : ℝ)

/-- A `primary_insights` entry of the consensus report. -/
structure InsightEntry where
  claim : String
  confidence : ℚ
  supporting_agents : List String
  evidence_count : Nat
deriving DecidableEq, Repr

/-- A `secondary_insights` entry of the consensus report. -/
structure SecondaryEntry where
  claim : String
  confidence : ℚ
  supporting_agents : List String
deriving DecidableEq, Repr

/-- The consensus report dictionary of `_generate_consensus_report`. -/
structure ConsensusReport where
  consensus_strength : ℚ
  primary_insights : List InsightEntry
  secondary_insights : List SecondaryEntry
  total_claims_analyzed : Nat
  agreement_level : ℝ

/-- Embedding of `BordaConsensusBuilder._generate_consensus_report`.  The
`scores` parameter is accepted and ignored, exactly as in the source,
which reads only the claims' `final_score` fields. -/
noncomputable def generateConsensusReport (claims : List ClaimT)
    (_scores : List (String × ℚ)) : ConsensusReport :=
  let sortedClaims :=
    List.insertionSort (fun a b : ClaimT => b.final_score ≤ a.final_score)
      claims
  let top := match sortedClaims with
    | [] => 0
    | c :: _ => c.final_score
  { consensus_strength := min 1 (top / 10),
    primary_insights :=
      ((sortedClaims.filter fun c =>
          decide (top * 0.8 ≤ c.final_score)).take 3).map fun c =>
        { claim := c.statement, confidence := c.final_score,
          supporting_agents := c.agent_votes.map Prod.fst,
          evidence_count := c.supporting_evidence.length },
    secondary_insights :=
      ((sortedClaims.filter fun c =>
          decide (top * 0.5 ≤ c.final_score ∧ c.final_score < top * 0.8)).take
        5).map fun c =>
        { claim := c.statement, confidence := c.final_score,
          supporting_agents := c.agent_votes.map Prod.fst },
    total_claims_analyzed := claims.length,
    agreement_level := calcAgreementLevel sortedClaims }

/-- Embedding of `BordaConsensusBuilder.build_consensus`: claim
extraction (which raises whenever any sentence survives the noise
filter), Borda scoring, evidence weighting and report assembly. -/
noncomputable def buildConsensus (b : BordaBuilder)
    (args : List DebateArgument) : Except PyError ConsensusReport :=
  match extractClaimsE args with
  | Except.error e => Except.error e
  | Except.ok claims =>
    let scores := calcBordaScores claims
    let wr := weightByEvidence b claims scores
    Except.ok (generateConsensusReport wr.1 wr.2)

/-- The agent roles of `model_router.py`. -/
inductive AgentRole where
  | dataDetective
  | optimistAnalyst
  | pessimistCritic
  | ethicalAuditor
  | synthesisModerator
  | orchestrator
deriving DecidableEq, Repr

/-- The cost table of `ModelRouter._initialize_model_costs` (cost per 1K
tokens). -/
def modelCosts : List (String × ℚ) :=
  [("gpt-4", 0.06), ("claude-3-opus", 0.075), ("grok-1", 0.05),
   ("claude-3-sonnet", 0.015), ("gpt-3.5-turbo", 0.002),
   ("claude-3-haiku", 0.0025),
   ("gemini-1.5-pro", 0.007), ("gemini-pro", 0.0005),
   ("gemini-flash", 0.0002),
   ("gemini-1.5-flash", 0.0001)]

/-- The capability table of `ModelRouter._initialize_model_capabilities`:
per backend, the five skill scores. -/
def modelCapabilities : List (String × List (String × ℚ)) :=
  [("gpt-4",
    [("reasoning", 0.95), ("ethics", 0.98), ("bias_detection", 0.92),
     ("data_analysis", 0.88), ("debate", 0.90)]),
   ("claude-3-opus",
    [("reasoning", 0.93), ("ethics", 0.85), ("bias_detection", 0.88),
     ("data_analysis", 0.85), ("debate", 0.95)]),
   ("grok-1",
    [("reasoning", 0.88), ("ethics", 0.75), ("bias_detection", 0.80),
     ("data_analysis", 0.82), ("debate", 0.92)]),
   ("claude-3-sonnet",
    [("reasoning", 0.85), ("ethics", 0.80), ("bias_detection", 0.75),
     ("data_analysis", 0.88), ("debate", 0.85)]),
   ("gpt-3.5-turbo",
    [("reasoning", 0.75), ("ethics", 0.70), ("bias_detection", 0.65),
     ("data_analysis", 0.70), ("debate", 0.75)]),
   ("gemini-1.5-pro",
    [("reasoning", 0.90), ("ethics", 0.75), ("bias_detection", 0.78),
     ("data_analysis", 0.95), ("debate", 0.80)]),
   ("gemini-pro",
    [("reasoning", 0.82), ("ethics", 0.70), ("bias_detection", 0.72),
     ("data_analysis", 0.90), ("debate", 0.75)]),
   ("gemini-flash",
    [("reasoning", 0.75), ("ethics", 0.65), ("bias_detection", 0.68),
     ("data_analysis", 0.85), ("debate", 0.70)])]

/-- The role preference table of `route_agent_model`: the role's primary
capability and its preferred backend list. -/
def rolePreferences (role : AgentRole) : String × List String :=
  match role with
  | AgentRole.dataDetective =>
    ("data_analysis", ["gemini-1.5-pro", "gemini-pro", "claude-3-sonnet"])
  | AgentRole.optimistAnalyst =>
    ("reasoning", ["claude-3-sonnet", "claude-3-opus", "gemini-1.5-pro"])
  | AgentRole.pessimistCritic =>
    ("debate", ["grok-1", "claude-3-opus", "claude-3-sonnet"])
  | AgentRole.ethicalAuditor =>
    ("ethics", ["gpt-4", "claude-3-opus", "claude-3-sonnet"])
  | AgentRole.synthesisModerator =>
    ("reasoning", ["gemini-1.5-pro", "claude-3-opus", "gpt-4"])
  | AgentRole.orchestrator =>
    ("reasoning", ["gemini-1.5-pro", "claude-3-opus", "gemini-pro"])

/-- The capability-threshold candidates of `route_agent_model`: preferred
backends present in the capability table whose primary-skill score meets
`min_capability = 0.6 + 0.3 × complexity`, paired with that score. -/
def routeCandidates (role : AgentRole) (complexity : ℚ) :
    List (String × ℚ) :=
  let prefs := rolePreferences role
  let minCap := 0.6 + complexity * 0.3
  prefs.2.filterMap fun m =>
    match modelCapabilities.lookup m with
    | none => none
    | some caps =>
      match caps.lookup prefs.1 with
      | none => none
      | some cap => if minCap ≤ cap then some (m, cap) else none

/-- The budget filter of `route_agent_model`.  Python tests the budget
with `if budget_constraint:`, so a missing budget and a zero budget both
skip the filter; an unknown backend is priced at `0.1`. -/
def budgetFilter (budget : Option ℚ) (l : List (String × ℚ)) :
    List (String × ℚ) :=
  match budget with
  | none => l
  | some bq =>
    if bq = 0 then l
    else l.filter fun pr => decide ((modelCosts.lookup pr.1).getD 0.1 ≤ bq)

/-- The deterministic selection step of `ModelRouter.route_agent_model`
(everything up to `selected_model`): threshold filter, stable descending
sort by capability, budget filter, then the head of the survivors, with
the hardcoded `"gemini-flash"` fallback when none survive.  The
subsequent availability resolution (`_try_model_with_fallback`) draws
random numbers and the usage tracking mutates a counter; both are
outside this selection step. -/
def routeAgentModelSelect (role : AgentRole) (complexity : ℚ)
    (budget : Option ℚ) : String :=
  match budgetFilter budget
      (List.insertionSort (fun a b : String × ℚ => b.2 ≤ a.2)
        (routeCandidates role complexity)) with
  | [] => "gemini-flash"
  | pr :: _ => pr.1

/-- Survivors of both route filters in preferred-list order, before the
sort: the set the claim's "highest-capability survivor" ranges over. -/
def routeSurvivors (role : AgentRole) (complexity : ℚ)
    (budget : Option ℚ) : List (String × ℚ) :=
  budgetFilter budget (routeCandidates role complexity)

/-- The backend with the smallest cost in the cost table (first entry on
ties); this is what the spec's fallback clause denotes. -/
def cheapestKnownModel : String :=
  match modelCosts with
  | [] => ""
  | p :: rest =>
    (rest.foldl (fun best q => if q.2 < best.2 then q else best) p).1

/-- The `BiasPattern` dataclass of `bias_detection.py`. -/
structure BiasPatternT where
  name : String
  description : String
  keywords : List String
  severity : ℚ
  category : String
deriving DecidableEq, Repr

/-- The confirmation-bias catalog entry. -/
def confirmationPattern : BiasPatternT :=
  { name := "confirmation_bias",
    description :=
      "Selectively interpreting evidence to confirm preexisting beliefs",
    keywords :=
      ["confirms", "validates", "supports my view", "as expected",
       "obviously"],
    severity := 0.7, category := "cognitive" }

/-- The anchoring-bias catalog entry. -/
def anchoringPattern : BiasPatternT :=
  { name := "anchoring_bias",
    description := "Over-relying on first piece of information encountered",
    keywords :=
      ["initial data shows", "first analysis", "starting point", "baseline"],
    severity := 0.6, category := "cognitive" }

/-- The availability-bias catalog entry. -/
def availabilityPattern : BiasPatternT :=
  { name := "availability_bias",
    description :=
      "Overestimating likelihood of events with greater availability in memory",
    keywords := ["recently", "just happened", "current trend", "latest"],
    severity := 0.5, category := "cognitive" }

/-- The demographic-bias catalog entry. -/
def demographicPattern : BiasPatternT :=
  { name := "demographic_bias",
    description := "Unfair treatment based on demographic characteristics",
    keywords :=
      ["urban vs rural", "age group", "gender", "ethnicity", "location"],
    severity := 0.9, category := "fairness" }

/-- The sample-bias catalog entry. -/
def samplePattern : BiasPatternT :=
  { name := "sample_bias",
    description := "Drawing conclusions from unrepresentative samples",
    keywords :=
      ["small sample", "limited data", "subset", "not representative"],
    severity := 0.8, category := "statistical" }

/-- The temporal-bias catalog entry. -/
def temporalPattern : BiasPatternT :=
  { name := "temporal_bias",
    description :=
      "Bias due to time-specific factors not representative of general trends",
    keywords := ["seasonal", "temporary", "one-time event", "anomaly"],
    severity := 0.6, category := "temporal" }

/-- The pattern catalog of `BiasDetector._initialize_bias_patterns`, in
source order. -/
def biasPatterns : List BiasPatternT :=
  [confirmationPattern, anchoringPattern, availabilityPattern,
   demographicPattern, samplePattern, temporalPattern]

/-- Embedding of `BiasDetector._detect_confirmation_bias`: `0.15` per
confirmation phrase found, a `0.1` bonus when no counter-connective
occurs anywhere in the text, capped at `0.6`. -/
def detectConfirmationBias (text : String) : ℚ :=
  let s :=
    (["this proves", "clearly shows", "confirms our hypothesis",
      "as we suspected", "validates our approach",
      "supports our view"].foldl
      (fun acc p => if pyIn p text then acc + 0.15 else acc) 0)
  let s2 :=
    if ["however", "but", "although", "despite",
        "alternatively"].any (fun c => pyIn c text) then s
    else s + 0.1
  min s2 0.6

/-- Word characters for the regex word-boundary semantics used by
`_detect_sample_bias` and `_detect_demographic_bias`. -/
def isWordChar (c : Char) : Bool := c.isAlphanum || c = '_'

/-- True when a word boundary sits immediately after a just-matched word
character: the next character is absent or a non-word character. -/
def boundaryAt (cs : List Char) : Bool :=
  match cs with
  | [] => true
  | c :: _ => !(isWordChar c)

/-- Case-insensitive literal match of `lit` against a prefix of `cs`,
returning the remainder on success. -/
def matchLitCI : List Char → List Char → Option (List Char)
  | [], cs => some cs
  | _ :: _, [] => none
  | l :: ls, c :: cs =>
    if l.toLower = c.toLower then matchLitCI ls cs else none

/-- Splits off a maximal run of whitespace, returning its length and the
remainder. -/
def takeSpaces : List Char → Nat × List Char
  | [] => (0, [])
  | c :: cs =>
    if c.isWhitespace then
      let r := takeSpaces cs
      (r.1 + 1, r.2)
    else (0, c :: cs)

/-- Splits off a maximal run of decimal digits, returning its length and
the remainder. -/
def takeDigits : List Char → Nat × List Char
  | [] => (0, [])
  | c :: cs =>
    if c.isDigit then
      let r := takeDigits cs
      (r.1 + 1, r.2)
    else (0, c :: cs)

/-- Matcher for the regex `(alt₁|…)\s+(alt₁'|…)\b` anchored at the start
of `cs` (the leading word boundary is handled by the scanner).  The
alternation lists used in the source are prefix-free, so first-match
semantics coincides with regex alternation. -/
def altPairMatchAt (alts1 alts2 : List String) (cs : List Char) : Bool :=
  alts1.any fun a =>
    match matchLitCI a.toList cs with
    | none => false
    | some rest =>
      let sp := takeSpaces rest
      decide (0 < sp.1) &&
        alts2.any fun b =>
          match matchLitCI b.toList sp.2 with
          | none => false
          | some r3 => boundaryAt r3

/-- Matcher for the regex `\d+\s*samples?\b` anchored at the start of
`cs`. -/
def sampleNumMatchAt (cs : List Char) : Bool :=
  let d := takeDigits cs
  decide (0 < d.1) &&
    (let sp := takeSpaces d.2
     match matchLitCI "sample".toList sp.2 with
     | none => false
     | some r3 =>
       match r3 with
       | [] => true
       | c :: r4 => if c.toLower = 's' then boundaryAt r4 else boundaryAt r3)

/-- Scanning continuation for `searchBW`, carrying whether the previous
character was a word character. -/
def searchBWAux (p : List Char → Bool) (prevWord : Bool) :
    List Char → Bool
  | [] => false
  | c :: rest =>
    (!prevWord && p (c :: rest)) || searchBWAux p (isWordChar c) rest

/-- Scanner implementing `re.search` for a pattern beginning with `\b`
followed by a word character: tries `p` at every position whose previous
character is absent or non-word. -/
def searchBW (p : List Char → Bool) (cs : List Char) : Bool :=
  searchBWAux p false cs

/-- Embedding of `BiasDetector._detect_sample_bias`: `0.2` per matching
small-sample regex, capped at `0.5`. -/
def detectSampleBias (text : String) : ℚ :=
  let cs := text.toList
  let hits :=
    [searchBW sampleNumMatchAt cs,
     searchBW (altPairMatchAt ["limited"] ["data"]) cs,
     searchBW (altPairMatchAt ["small"] ["dataset"]) cs,
     searchBW (altPairMatchAt ["few"] ["cases"]) cs]
  min (hits.foldl (fun acc h => if h then acc + 0.2 else acc) 0) 0.5

/-- The demographic term list of `_detect_demographic_bias`. -/
def demographicTerms : List String :=
  ["urban", "rural", "city", "suburban",
   "young", "old", "elderly", "millennial",
   "male", "female", "men", "women"]

/-- Embedding of `BiasDetector._detect_demographic_bias`: `0.3` per
matching generalization regex, capped at `0.8`. -/
def detectDemographicBias (text : String) : ℚ :=
  let cs := text.toList
  let hits :=
    [searchBW (altPairMatchAt ["all", "most", "many"] demographicTerms) cs,
     searchBW (altPairMatchAt demographicTerms
       ["always", "never", "typically"]) cs]
  min (hits.foldl (fun acc h => if h then acc + 0.3 else acc) 0) 0.8

/-- Per-pattern score of `_analyze_argument_bias`: `severity × 0.2` per
keyword found as a substring, plus the pattern-specific booster. -/
def patternScore (p : BiasPatternT) (text : String) : ℚ :=
  let base :=
    p.keywords.foldl
      (fun acc k => if pyIn k text then acc + p.severity * 0.2 else acc) 0
  base +
    (if p.name = "confirmation_bias" then detectConfirmationBias text
     else if p.name = "sample_bias" then detectSampleBias text
     else if p.name = "demographic_bias" then detectDemographicBias text
     else 0)

/-- Loop body of `_analyze_argument_bias`: a pattern fires once its score
exceeds `0.1`, contributing `min(score, severity)` to the total and its
name to the detected list. -/
def biasFoldStep (text : String) (acc : ℚ × List String)
    (p : BiasPatternT) : ℚ × List String :=
  let s := patternScore p text
  if 0.1 < s then (acc.1 + min s p.severity, acc.2 ++ [p.name]) else acc

/-- Embedding of `BiasDetector._analyze_argument_bias`: the total bias
score (capped at 1) and the detected pattern names in catalog order. -/
def analyzeArgumentBias (text : String) : ℚ × List String :=
  let r := biasPatterns.foldl (biasFoldStep text) (0, [])
  (min r.1 1, r.2)

/-- Modelled from the spec for the claim about agreement levels: the
mean over exactly the claims with at least two voters (the spec's
formula, stated for comparison with the source's
`_calculate_agreement_level`). -/
noncomputable def specAgreementLevel (claims : List ClaimT) : ℝ :=
  let multi := claims.filter fun c => decide (1 < c.agent_votes.length)
  if multi.isEmpty then 0
  else (multi.map fun c => agreeContribution c.agent_votes).sum /
    (multi.length : ℝ)

/-- A moderator freshly constructed with the default parameters. -/
def demoState : ModeratorState :=
  { max_rounds := 3, conflict_threshold := 7, debate_log := [],
    current_round := 0, phase := DebatePhase.initializationPhase }

/-- External invocation whose outcome is the agent object itself: the
simplest instantiation of the invocation collaborator. -/
def demoInvoke : InvokeOutcome → String → String → InvokeOutcome :=
  fun o _ _ => o

/-- A constant stand-in for each of the three missing metric helpers. -/
def zeroMetric : List DebateArgument → ℚ := fun _ => 0

/-- Roster for the skipped-agent run: agents `a` and `c` respond, agent
`b`'s invocation fails. -/
def demoRoster : List (String × InvokeOutcome) :=
  [("a", InvokeOutcome.success ⟨"alpha argument", [], none⟩),
   ("b", InvokeOutcome.failure "timeout"),
   ("c", InvokeOutcome.success ⟨"gamma argument", ["e1"], some 0.9⟩)]

/-- The per-agent responses of `demoRoster`, independent of context. -/
def demoResp : String → Option ArgPayload := fun n =>
  if n = "a" then
    some { text := "alpha argument", evidence := [], confidence := none }
  else if n = "c" then
    some { text := "gamma argument", evidence := ["e1"],
           confidence := some 0.9 }
  else none

/-- Debate context for the skipped-agent run. -/
def demoCtx : DebateContext InvokeOutcome :=
  { question := "q", agents := demoRoster, start_time := 0,
    debate_id := "debate_0" }

/-- Roster of two responding agents, used to inspect context windows. -/
def demoRoster2 : List (String × InvokeOutcome) :=
  [("a", InvokeOutcome.success ⟨"alpha argument", [], none⟩),
   ("b", InvokeOutcome.success ⟨"beta argument", [], none⟩)]

/-- Debate context for the context-window run. -/
def demoCtx2 : DebateContext InvokeOutcome :=
  { question := "q", agents := demoRoster2, start_time := 0,
    debate_id := "debate_0" }

/-- Two-voter claim with equal confidences, for agreement-level
computations. -/
def demoClaimA : ClaimT :=
  { statement := "statement backed by two equal votes",
    supporting_evidence := [], agent_votes := [("p", 0.5), ("q", 0.5)] }

/-- Single-voter claim, for agreement-level computations. -/
def demoClaimB : ClaimT :=
  { statement := "statement backed by one vote", supporting_evidence := [],
    agent_votes := [("r", 0.5)] }

instance : IsTotal ℚ (fun a b : ℚ => b ≤ a) :=
  ⟨fun a b => le_total b a⟩

instance : IsTrans ℚ (fun a b : ℚ => b ≤ a) :=
  ⟨fun _ _ _ h1 h2 => le_trans h2 h1⟩

instance : IsTotal (String × ℚ) (fun a b : String × ℚ => b.2 ≤ a.2) :=
  ⟨fun a b => le_total b.2 a.2⟩

instance : IsTrans (String × ℚ) (fun a b : String × ℚ => b.2 ≤ a.2) :=
  ⟨fun _ _ _ h1 h2 => le_trans h2 h1⟩

/-- The number of unordered pairs the conflict loop visits is `n choose
2`. -/
theorem ordPairs_length (l : List α) :
    (ordPairs l).length = Nat.choose l.length 2 := by
  induction l with
  | nil => rfl
  | cons x xs ih =>
    simp only [ordPairs, List.length_append, List.length_map, ih,
      List.length_cons]
    rw [Nat.choose_succ_succ, Nat.choose_one_right]

/-- Claim C2, counterexample.  The claim says an empty roster makes
`initiate_debate` fail with `InvalidConfiguration`; the source performs
no roster validation, so initiation with the empty roster returns a
debate context and raises nothing. -/
theorem claimC2_counterexample :
    ¬ ∃ e, initiateDebate demoState "q" ([] : List (String × InvokeOutcome)) 0
        = Except.error e := by
  rintro ⟨e, h⟩
  simp [initiateDebate] at h

/-- Claim C2, amended: `initiate_debate` performs no roster validation;
for every roster, including the empty one, it resets the log, the round
counter and the phase, keeps the configured bounds, and returns a debate
context carrying the question and the roster; no error is raised. -/
theorem claimC2_amended (st : ModeratorState) (q : String)
    (agents : List (String × α)) (now : ℚ) :
    ∃ st2 ctx, initiateDebate st q agents now = Except.ok (st2, ctx) ∧
      st2.debate_log = [] ∧ st2.current_round = 0 ∧
      st2.phase = DebatePhase.initializationPhase ∧
      st2.max_rounds = st.max_rounds ∧
      st2.conflict_threshold = st.conflict_threshold ∧
      ctx.question = q ∧ ctx.agents = agents := by
  exact ⟨_, _, rfl, rfl, rfl, rfl, rfl, rfl, rfl, rfl⟩

/-- Claim C4: `should_continue_debate` returns false at or beyond the
round cap; below it, high conflict with consensus below 0.6 continues,
consensus above 0.8 stops, and every remaining case continues.  In
particular any metrics with consensus 0.9 stop a round-1 debate with
`max_rounds = 3` and threshold 7, whatever the conflict intensity. -/
theorem claimC4_should_continue :
    (∀ st m, shouldContinueDebate st m =
      if st.max_rounds ≤ st.current_round then false
      else if st.conflict_threshold < m.conflict_intensity ∧
              m.consensus_level < 0.6 then true
      else if 0.8 < m.consensus_level then false
      else true) ∧
    (∀ log ph ci b e p,
      shouldContinueDebate
        { max_rounds := 3, conflict_threshold := 7, debate_log := log,
          current_round := 1, phase := ph }
        { conflict_intensity := ci, consensus_level := 0.9, bias_score := b,
          evidence_strength := e, participation_balance := p } = false) := by
  constructor
  · intro st m
    unfold shouldContinueDebate
    split_ifs with h1 h2 h3
    · rfl
    · rfl
    · rfl
    · simp only [decide_eq_true_eq]
      omega
  · intro log ph ci b e p
    unfold shouldContinueDebate
    norm_num

/-- The Borda accumulation loop is the starting value plus the mapped
sum of per-voter points times confidence. -/
theorem bordaFold_sum (n : ℚ) (sv : List ℚ) :
    ∀ (l : List (String × ℚ)) (a : ℚ),
      l.foldl (fun acc pr => acc + (n - (pyIndex pr.2 sv : ℚ)) * pr.2) a =
        a + (l.map fun pr => (n - (pyIndex pr.2 sv : ℚ)) * pr.2).sum := by
  intro l
  induction l with
  | nil => intro a; simp
  | cons x xs ih =>
    intro a
    simp only [List.foldl_cons, List.map_cons, List.sum_cons, ih]
    ring

/-- Claim C5: conflict intensity is exactly 1 below two arguments and
otherwise `min(10, 1 + 9 × disagreeing/total)` over the `n choose 2`
unordered pairs, a pair disagreeing when either side's text has a
conflict keyword; the result lies in `[1, 10]`, and the consensus level
of the round metrics is exactly `1 − intensity/10` for every choice of
the missing metric helpers. -/
theorem claimC5_conflict_intensity (args : List DebateArgument)
    (fb fe fp : List DebateArgument → ℚ) :
    conflictIntensity args =
      (if args.length < 2 then 1
       else min 10 (1 + 9 *
        ((((ordPairs args).filter fun p => pairDisagrees p.1 p.2).length : ℚ) /
          ((ordPairs args).length : ℚ)))) ∧
    1 ≤ conflictIntensity args ∧ conflictIntensity args ≤ 10 ∧
    (calcDebateMetrics fb fe fp args).consensus_level =
      1 - conflictIntensity args / 10 ∧
    (ordPairs args).length = Nat.choose args.length 2 := by
  have hform : conflictIntensity args =
      (if args.length < 2 then 1
       else min 10 (1 + 9 *
        ((((ordPairs args).filter fun p => pairDisagrees p.1 p.2).length : ℚ) /
          ((ordPairs args).length : ℚ)))) := by
    by_cases h : args.length < 2
    · simp [conflictIntensity, h]
    · have htot : 0 < (ordPairs args).length := by
        rw [ordPairs_length]
        exact Nat.choose_pos (by omega)
      simp only [conflictIntensity, if_neg h, if_neg htot.ne']
      ring_nf
  have hbounds : 1 ≤ conflictIntensity args ∧ conflictIntensity args ≤ 10 := by
    rw [hform]
    by_cases h : args.length < 2
    · simp [h]
    · have htot : 0 < (ordPairs args).length := by
        rw [ordPairs_length]
        exact Nat.choose_pos (by omega)
      have hr : (0 : ℚ) ≤
          (((ordPairs args).filter fun p => pairDisagrees p.1 p.2).length : ℚ) /
            ((ordPairs args).length : ℚ) := by positivity
      rw [if_neg h]
      constructor
      · exact le_min (by norm_num) (by linarith)
      · exact min_le_left _ _
  exact ⟨hform, hbounds.1, hbounds.2, rfl, ordPairs_length args⟩

/-- Claim C6: each claim's Borda score is the sum over voters of
`(total_voters − rank) × confidence` divided by the voter count, where
the rank is the first position of the voter's confidence in the
descending-sorted confidence sequence (a genuine descending-sorted
permutation of the votes); zero voters score 0, and the three-voter
example `[0.9, 0.5, 0.2]` scores exactly 1.3. -/
theorem claimC6_borda_scores (votes : List (String × ℚ)) :
    (bordaScoreOf votes =
      if votes.length = 0 then 0
      else (votes.map fun pr =>
        ((votes.length : ℚ) -
          (pyIndex pr.2 (List.insertionSort (fun a b : ℚ => b ≤ a)
            (votes.map Prod.snd)) : ℚ)) * pr.2).sum /
        (votes.length : ℚ)) ∧
    List.Sorted (fun a b : ℚ => b ≤ a)
      (List.insertionSort (fun a b : ℚ => b ≤ a) (votes.map Prod.snd)) ∧
    List.Perm
      (List.insertionSort (fun a b : ℚ => b ≤ a) (votes.map Prod.snd))
      (votes.map Prod.snd) ∧
    bordaScoreOf [("x", 0.9), ("y", 0.5), ("z", 0.2)] = 1.3 ∧
    bordaScoreOf [] = 0 := by
  refine ⟨?_, List.sorted_insertionSort _ _, List.perm_insertionSort _ _,
    by norm_num [bordaScoreOf, List.insertionSort, List.orderedInsert,
      pyIndex], rfl⟩
  by_cases h : votes.length = 0
  · simp [bordaScoreOf, h]
  · simp only [bordaScoreOf, if_neg h]
    rw [bordaFold_sum, zero_add]

/-- Claim extraction errors exactly when some argument has a sentence
surviving the noise filter, and otherwise produces no claims. -/
theorem extractClaimsE_eq (args : List DebateArgument) :
    extractClaimsE args =
      if args.any argHasLongSentence then
        Except.error (PyError.attributeError "_extract_evidence")
      else Except.ok [] := by
  induction args with
  | nil => rfl
  | cons a rest ih =>
    by_cases h : argHasLongSentence a
    · simp [extractClaimsE, h]
    · simp [extractClaimsE, h, ih]

/-- Claim C3: `build_consensus` raises `AttributeError` (from the
missing `_extract_evidence` helper) exactly when some argument's text,
split on `". "`, has a trimmed sentence longer than 20 characters; on
every other input it returns the report with consensus strength 0, empty
insight lists, zero claims analyzed and agreement level 0. -/
theorem claimC3_build_consensus (b : BordaBuilder)
    (args : List DebateArgument) :
    buildConsensus b args =
      if args.any argHasLongSentence then
        Except.error (PyError.attributeError "_extract_evidence")
      else
        Except.ok
          { consensus_strength := 0, primary_insights := [],
            secondary_insights := [], total_claims_analyzed := 0,
            agreement_level := 0 } := by
  unfold buildConsensus
  rw [extractClaimsE_eq]
  by_cases h : args.any argHasLongSentence
  · simp [h]
  · simp only [h, if_false, Bool.false_eq_true]
    have hrep : generateConsensusReport [] [] =
        { consensus_strength := 0, primary_insights := [],
          secondary_insights := [], total_claims_analyzed := 0,
          agreement_level := 0 } := by
      simp [generateConsensusReport, calcAgreementLevel]
    simpa [weightByEvidence, calcBordaScores] using hrep

/-- Every step of the conditional accumulation in the keyword and phrase
loops only ever adds a nonnegative constant, so the fold is bounded
below by its starting value. -/
theorem le_foldl_addIf (c : ℚ) (hc : 0 ≤ c) (g : String → Bool) :
    ∀ (l : List String) (a : ℚ),
      a ≤ l.foldl (fun acc x => if g x then acc + c else acc) a := by
  intro l
  induction l with
  | nil => intro a; simp
  | cons x xs ih =>
    intro a
    rw [List.foldl_cons]
    refine le_trans ?_ (ih _)
    by_cases h : g x
    · simp [h]; linarith
    · simp [h]

/-- A name present in the accumulator survives the rest of the bias
pattern fold, which only ever appends. -/
theorem biasFold_mem (text : String) (n : String) :
    ∀ (l : List BiasPatternT) (acc : ℚ × List String), n ∈ acc.2 →
      n ∈ (l.foldl (biasFoldStep text) acc).2 := by
  intro l
  induction l with
  | nil => intro acc h; simpa using h
  | cons p ps ih =>
    intro acc h
    rw [List.foldl_cons]
    refine ih _ ?_
    unfold biasFoldStep
    by_cases hs : (0.1 : ℚ) < patternScore p text
    · simp only [if_pos hs]
      exact List.mem_append_left _ h
    · simpa [if_neg hs] using h

/-- A conditional-accumulation fold whose first element tests true is at
least the added constant. -/
theorem foldl_addIf_head_ge (c : ℚ) (hc : 0 ≤ c) (g : String → Bool)
    (x : String) (hx : g x = true) (l : List String) :
    c ≤ (x :: l).foldl (fun acc s => if g s then acc + c else acc) 0 := by
  simp only [List.foldl_cons, hx, if_true]
  have := le_foldl_addIf c hc g l (0 + c)
  linarith

/-- Claim C10: a text containing "this proves" and none of the five
counter-connectives gets a confirmation-bias contribution of at least
0.25 (the contribution being `min(pattern_score, severity)` as summed by
`_analyze_argument_bias`), and `"confirmation_bias"` appears among the
detected patterns. -/
theorem claimC10_confirmation_bias (text : String)
    (h1 : pyIn "this proves" text = true)
    (h2 : (["however", "but", "although", "despite", "alternatively"].any
      fun c => pyIn c text) = false) :
    0.25 ≤ min (patternScore confirmationPattern text)
      confirmationPattern.severity ∧
    "confirmation_bias" ∈ (analyzeArgumentBias text).2 := by
  have hdet : (0.25 : ℚ) ≤ detectConfirmationBias text := by
    have hd2 : detectConfirmationBias text =
        min ((["this proves", "clearly shows", "confirms our hypothesis",
          "as we suspected", "validates our approach",
          "supports our view"].foldl
            (fun acc p => if pyIn p text then acc + 0.15 else acc) 0) + 0.1)
          0.6 := by
      simp only [detectConfirmationBias, h2, Bool.false_eq_true, if_false]
    rw [hd2]
    refine le_min ?_ (by norm_num)
    have hs := foldl_addIf_head_ge 0.15 (by norm_num)
      (fun p => pyIn p text) "this proves" h1
      ["clearly shows", "confirms our hypothesis", "as we suspected",
       "validates our approach", "supports our view"]
    linarith
  have hbase : (0 : ℚ) ≤
      confirmationPattern.keywords.foldl
        (fun acc k =>
          if pyIn k text then acc + confirmationPattern.severity * 0.2
          else acc) 0 := by
    refine le_foldl_addIf _ ?_ _ _ _
    norm_num [confirmationPattern]
  have hps : (0.25 : ℚ) ≤ patternScore confirmationPattern text := by
    have hname : patternScore confirmationPattern text =
        confirmationPattern.keywords.foldl
          (fun acc k =>
            if pyIn k text then acc + confirmationPattern.severity * 0.2
            else acc) 0 + detectConfirmationBias text := by
      simp [patternScore, confirmationPattern]
    rw [hname]
    linarith
  have hlt : (0.1 : ℚ) < patternScore confirmationPattern text := by
    linarith
  have hstep : (biasFoldStep text (0, []) confirmationPattern).2 =
      ["confirmation_bias"] := by
    simp only [biasFoldStep, if_pos hlt]
    simp [confirmationPattern]
  constructor
  · refine le_min hps ?_
    norm_num [confirmationPattern]
  · simp only [analyzeArgumentBias]
    rw [show biasPatterns = confirmationPattern ::
      [anchoringPattern, availabilityPattern, demographicPattern,
       samplePattern, temporalPattern] from rfl, List.foldl_cons]
    refine biasFold_mem text _ _ _ ?_
    rw [hstep]
    exact List.mem_singleton_self _

/-- Claim C10 witness: the text "this proves our hypothesis" satisfies
both hypotheses and so receives the confirmation-bias contribution and
the detected-pattern entry. -/
theorem claimC10_witness :
    pyIn "this proves" "this proves our hypothesis" = true ∧
    ((["however", "but", "although", "despite", "alternatively"].any
      fun c => pyIn c "this proves our hypothesis") = false) ∧
    (0.25 ≤ min (patternScore confirmationPattern
        "this proves our hypothesis") confirmationPattern.severity ∧
      "confirmation_bias" ∈
        (analyzeArgumentBias "this proves our hypothesis").2) :=
  ⟨by decide, by decide,
    claimC10_confirmation_bias "this proves our hypothesis" (by decide)
      (by decide)⟩

/-- Claim C9, counterexample.  At role `ethical_auditor`, complexity 1
and budget `10⁻⁶`, no preferred backend survives the two filters, and
the selection step returns the hardcoded `"gemini-flash"` — not the
cheapest backend known in the cost table, which is `"gemini-1.5-flash"`
at 0.0001 (versus 0.0002). -/
theorem claimC9_counterexample :
    routeSurvivors AgentRole.ethicalAuditor 1 (some (1/1000000)) = [] ∧
    routeAgentModelSelect AgentRole.ethicalAuditor 1 (some (1/1000000)) =
      "gemini-flash" ∧
    cheapestKnownModel = "gemini-1.5-flash" ∧
    routeAgentModelSelect AgentRole.ethicalAuditor 1 (some (1/1000000)) ≠
      cheapestKnownModel := by
  have h1 : routeSurvivors AgentRole.ethicalAuditor 1 (some (1/1000000)) =
      [] := by
    simp [routeSurvivors, routeCandidates, rolePreferences,
      modelCapabilities, List.lookup, List.filterMap_cons, budgetFilter,
      modelCosts]
    norm_num
  have h2 : routeAgentModelSelect AgentRole.ethicalAuditor 1
      (some (1/1000000)) = "gemini-flash" := by
    simp [routeAgentModelSelect, routeCandidates, rolePreferences,
      modelCapabilities, List.lookup, List.filterMap_cons, budgetFilter,
      modelCosts]
    norm_num
  have h3 : cheapestKnownModel = "gemini-1.5-flash" := by
    simp [cheapestKnownModel, modelCosts]
    norm_num
  refine ⟨h1, h2, h3, ?_⟩
  rw [h2, h3]
  simp

/-- Claim C9, amended: the selection step keeps the preferred backends
meeting the capability threshold `0.6 + 0.3 × complexity` on the role's
primary skill and, when a nonzero budget is given, costing at most the
budget; it picks a maximal-capability survivor, and when no backend
survives it returns the constant `"gemini-flash"` (which is not the
cheapest entry of the cost table; `"gemini-1.5-flash"` is cheaper). -/
theorem claimC9_amended (role : AgentRole) (complexity : ℚ)
    (budget : Option ℚ) :
    (routeSurvivors role complexity budget = [] →
      routeAgentModelSelect role complexity budget = "gemini-flash") ∧
    (routeSurvivors role complexity budget ≠ [] →
      ∃ cap, (routeAgentModelSelect role complexity budget, cap) ∈
          routeSurvivors role complexity budget ∧
        ∀ pr ∈ routeSurvivors role complexity budget, pr.2 ≤ cap) := by
  have hperm : List.Perm
      (budgetFilter budget (List.insertionSort
        (fun a b : String × ℚ => b.2 ≤ a.2)
        (routeCandidates role complexity)))
      (routeSurvivors role complexity budget) := by
    unfold routeSurvivors budgetFilter
    cases budget with
    | none => exact List.perm_insertionSort _ _
    | some bq =>
      by_cases hbq : bq = 0
      · simp only [if_pos hbq]
        exact List.perm_insertionSort _ _
      · simp only [if_neg hbq]
        exact (List.perm_insertionSort _ _).filter _
  have hsorted : List.Sorted (fun a b : String × ℚ => b.2 ≤ a.2)
      (budgetFilter budget (List.insertionSort
        (fun a b : String × ℚ => b.2 ≤ a.2)
        (routeCandidates role complexity))) := by
    have hs := List.sorted_insertionSort
      (fun a b : String × ℚ => b.2 ≤ a.2) (routeCandidates role complexity)
    unfold budgetFilter
    cases budget with
    | none => exact hs
    | some bq =>
      by_cases hbq : bq = 0
      · simp only [if_pos hbq]
        exact hs
      · simp only [if_neg hbq]
        exact List.Pairwise.sublist (List.filter_sublist _) hs
  rcases hcase : budgetFilter budget (List.insertionSort
      (fun a b : String × ℚ => b.2 ≤ a.2)
      (routeCandidates role complexity)) with _ | ⟨hd, tl⟩
  · have hsurv : routeSurvivors role complexity budget = [] := by
      rw [hcase] at hperm
      exact hperm.symm.eq_nil
    have hsel : routeAgentModelSelect role complexity budget =
        "gemini-flash" := by
      unfold routeAgentModelSelect
      rw [hcase]
    exact ⟨fun _ => hsel, fun hne => absurd hsurv hne⟩
  · have hsel : routeAgentModelSelect role complexity budget = hd.1 := by
      unfold routeAgentModelSelect
      rw [hcase]
    rw [hcase] at hperm hsorted
    have hdmem : hd ∈ routeSurvivors role complexity budget :=
      hperm.mem_iff.mp (List.mem_cons_self _ _)
    have hmax : ∀ pr ∈ routeSurvivors role complexity budget,
        pr.2 ≤ hd.2 := by
      intro pr hpr
      rcases List.mem_cons.mp (hperm.mem_iff.mpr hpr) with rfl | htl
      · exact le_refl _
      · exact List.rel_of_sorted_cons hsorted _ htl
    have hne0 : routeSurvivors role complexity budget ≠ [] := by
      intro h0
      rw [h0] at hdmem
      exact List.not_mem_nil _ hdmem
    refine ⟨fun h0 => absurd h0 hne0, fun _ => ⟨hd.2, ?_, hmax⟩⟩
    rw [hsel]
    exact hdmem

/-- Claim C9 witness: with role `data_detective`, complexity 0.5 and no
budget the survivor set is nonempty and the selection picks a
maximal-capability member of it; with the counterexample input the
survivor set is empty and the fallback constant is returned. -/
theorem claimC9_witness :
    routeSurvivors AgentRole.dataDetective 0.5 none ≠ [] ∧
    (∃ cap, (routeAgentModelSelect AgentRole.dataDetective 0.5 none, cap) ∈
        routeSurvivors AgentRole.dataDetective 0.5 none ∧
      ∀ pr ∈ routeSurvivors AgentRole.dataDetective 0.5 none,
        pr.2 ≤ cap) ∧
    routeSurvivors AgentRole.ethicalAuditor 1 (some (1/1000000)) = [] ∧
    routeAgentModelSelect AgentRole.ethicalAuditor 1 (some (1/1000000)) =
      "gemini-flash" := by
  have hne : routeSurvivors AgentRole.dataDetective 0.5 none ≠ [] := by
    simp [routeSurvivors, routeCandidates, rolePreferences,
      modelCapabilities, List.lookup, List.filterMap_cons, budgetFilter]
    norm_num
    exact List.cons_ne_nil _ _
  have hemp : routeSurvivors AgentRole.ethicalAuditor 1
      (some (1/1000000)) = [] := by
    simp [routeSurvivors, routeCandidates, rolePreferences,
      modelCapabilities, List.lookup, List.filterMap_cons, budgetFilter,
      modelCosts]
    norm_num
  exact ⟨hne, (claimC9_amended AgentRole.dataDetective 0.5 none).2 hne,
    hemp, (claimC9_amended AgentRole.ethicalAuditor 1
      (some (1/1000000))).1 hemp⟩

/-- The agreement accumulation loop adds exactly the contributions of
the claims with more than one voter. -/
theorem agreeFold_sum :
    ∀ (l : List ClaimT) (a : ℝ),
      l.foldl
        (fun acc c =>
          if 1 < c.agent_votes.length then
            acc + agreeContribution c.agent_votes
          else acc) a =
      a + ((l.filter fun c => decide (1 < c.agent_votes.length)).map
        fun c => agreeContribution c.agent_votes).sum := by
  intro l
  induction l with
  | nil => intro a; simp
  | cons c cs ih =>
    intro a
    rw [List.foldl_cons]
    by_cases h : 1 < c.agent_votes.length
    · rw [if_pos h, ih]
      simp [List.filter_cons, h]
      ring
    · rw [if_neg h, ih]
      simp [List.filter_cons, h]

/-- Claim C7, amended: the report's agreement level is the sum, over
claims with at least two voters, of `max(0, 1 − stdev/mean)` (claims
with nonpositive vote mean contributing 0), divided by the total number
of claims — single-voter claims count in the denominator while adding
nothing to the numerator; with no claims the level is 0. -/
theorem claimC7_amended (claims : List ClaimT) :
    calcAgreementLevel claims =
      if claims.isEmpty then 0
      else ((claims.filter fun c => decide (1 < c.agent_votes.length)).map
        fun c => agreeContribution c.agent_votes).sum /
        (claims.length : ℝ) := by
  unfold calcAgreementLevel
  by_cases h : claims.isEmpty
  · simp [h]
  · rw [if_neg h, if_neg h, agreeFold_sum, zero_add]

/-- Claim C7, counterexample.  On one two-voter claim (equal votes, full
agreement) plus one single-voter claim, the source divides the total
agreement 1 by the number of all claims, giving 1/2; the claim's mean
over only multi-voter claims would give 1. -/
theorem claimC7_counterexample :
    calcAgreementLevel [demoClaimA, demoClaimB] = 1/2 ∧
    specAgreementLevel [demoClaimA, demoClaimB] = 1 ∧
    calcAgreementLevel [demoClaimA, demoClaimB] ≠
      specAgreementLevel [demoClaimA, demoClaimB] := by
  have hm : npMean [(0.5 : ℚ), 0.5] = 1/2 := by
    norm_num [npMean]
  have hv : npVar [(0.5 : ℚ), 0.5] = 0 := by
    norm_num [npVar, npMean]
  have hs : npStd [(0.5 : ℚ), 0.5] = 0 := by
    rw [npStd, hv]
    simp
  have hA : agreeContribution [("p", (0.5 : ℚ)), ("q", 0.5)] = 1 := by
    simp only [agreeContribution, List.map_cons, List.map_nil]
    rw [hm, hs]
    norm_num
  have h1 : calcAgreementLevel [demoClaimA, demoClaimB] = 1/2 := by
    simp [calcAgreementLevel, demoClaimA, demoClaimB, hA]
  have h2 : specAgreementLevel [demoClaimA, demoClaimB] = 1 := by
    simp [specAgreementLevel, demoClaimA, demoClaimB, List.filter_cons, hA]
  refine ⟨h1, h2, ?_⟩
  rw [h1, h2]
  norm_num

/-- When every agent's invocation outcome is a fixed per-agent response
(independent of the context string), the arguments a round collects are
exactly the responding agents' arguments, in roster order. -/
theorem roundFold_args (invoke : α → String → String → InvokeOutcome)
    (q : String) (now : ℚ) (r : Nat)
    (resp : String → Option ArgPayload) :
    ∀ (roster : List (String × α)) (log : List DebateArgument),
      (∀ pr ∈ roster, ∀ c,
        getAgentArgument (invoke pr.2 c q) = resp pr.1) →
      (roundFold invoke q now r roster log).2.1 =
        roster.filterMap fun pr =>
          (resp pr.1).map fun p => mkRoundArgument pr.1 p now r := by
  intro roster
  induction roster with
  | nil => intro log h; rfl
  | cons hd rest ih =>
    intro log h
    obtain ⟨name, agent⟩ := hd
    have hhd := h (name, agent) (List.mem_cons_self _ _)
      (buildAgentContext log name)
    have hrest : ∀ pr ∈ rest, ∀ c,
        getAgentArgument (invoke pr.2 c q) = resp pr.1 :=
      fun pr hpr c => h pr (List.mem_cons_of_mem _ hpr) c
    simp only [roundFold, hhd]
    cases hresp : resp name with
    | none =>
      simp only [List.filterMap_cons, hresp, Option.map_none']
      exact ih log hrest
    | some p =>
      simp only [List.filterMap_cons, hresp, Option.map_some']
      rw [ih (log ++ [mkRoundArgument name p now r]) hrest]

/-- Claim C1: during `facilitate_round` with per-agent response
behavior, an agent whose invocation fails or returns nothing contributes
no argument, the collected arguments are exactly the responding agents'
arguments in roster order, and the returned metrics are computed over
those remaining arguments; the function returns normally (it is total),
so no error reaches the caller. -/
theorem claimC1_skipped_agent
    (invoke : α → String → String → InvokeOutcome)
    (fb fe fp : List DebateArgument → ℚ) (st : ModeratorState)
    (ctx : DebateContext α) (now : ℚ) (n0 : String)
    (resp : String → Option ArgPayload)
    (hresp : ∀ pr ∈ ctx.agents, ∀ c,
      getAgentArgument (invoke pr.2 c ctx.question) = resp pr.1)
    (_hmem : ∃ a, (n0, a) ∈ ctx.agents)
    (hfail : resp n0 = none) :
    (facilitateRound invoke fb fe fp st ctx now).2.1 =
      ctx.agents.filterMap (fun pr => (resp pr.1).map fun p =>
        mkRoundArgument pr.1 p now (st.current_round + 1)) ∧
    n0 ∉ (facilitateRound invoke fb fe fp st ctx now).2.1.map
      DebateArgument.agent_name ∧
    (facilitateRound invoke fb fe fp st ctx now).2.2 =
      calcDebateMetrics fb fe fp
        (facilitateRound invoke fb fe fp st ctx now).2.1 := by
  have hargs : (facilitateRound invoke fb fe fp st ctx now).2.1 =
      ctx.agents.filterMap (fun pr => (resp pr.1).map fun p =>
        mkRoundArgument pr.1 p now (st.current_round + 1)) := by
    unfold facilitateRound
    exact roundFold_args invoke ctx.question now (st.current_round + 1)
      resp ctx.agents st.debate_log hresp
  refine ⟨hargs, ?_, rfl⟩
  rw [hargs]
  intro hcontra
  rcases List.mem_map.mp hcontra with ⟨arg, hargmem, hname⟩
  rcases List.mem_filterMap.mp hargmem with ⟨pr, hprmem, hf⟩
  rcases Option.map_eq_some'.mp hf with ⟨p, hrp, hmk⟩
  have hpr1 : pr.1 = n0 := by
    rw [← hname, ← hmk]
    rfl
  rw [hpr1, hfail] at hrp
  exact Option.noConfusion hrp

/-- Claim C1 witness: with three agents of which `b`'s invocation fails,
the round collects exactly `a`'s and `c`'s arguments, `b` appears
nowhere, and the metrics are computed over the two collected
arguments. -/
theorem claimC1_witness :
    demoResp "b" = none ∧
    (facilitateRound demoInvoke zeroMetric zeroMetric zeroMetric demoState
      demoCtx 0).2.1 =
      [mkRoundArgument "a" ⟨"alpha argument", [], none⟩ 0 1,
       mkRoundArgument "c" ⟨"gamma argument", ["e1"], some 0.9⟩ 0 1] ∧
    "b" ∉ (facilitateRound demoInvoke zeroMetric zeroMetric zeroMetric
      demoState demoCtx 0).2.1.map DebateArgument.agent_name ∧
    (facilitateRound demoInvoke zeroMetric zeroMetric zeroMetric demoState
      demoCtx 0).2.2 =
      calcDebateMetrics zeroMetric zeroMetric zeroMetric
        (facilitateRound demoInvoke zeroMetric zeroMetric zeroMetric
          demoState demoCtx 0).2.1 := by
  have h := claimC1_skipped_agent demoInvoke zeroMetric zeroMetric
    zeroMetric demoState demoCtx 0 "b" demoResp
    (by
      intro pr hpr c
      simp [demoCtx, demoRoster] at hpr
      rcases hpr with rfl | rfl | rfl <;> rfl)
    ⟨InvokeOutcome.failure "timeout", by simp [demoCtx, demoRoster]⟩
    rfl
  obtain ⟨h1, h2, h3⟩ := h
  refine ⟨rfl, ?_, h2, h3⟩
  rw [h1]
  rfl

/-- The context window never exceeds six entries. -/
theorem contextEntries_length_le (log : List DebateArgument)
    (name : String) : (contextEntries log name).length ≤ 6 := by
  unfold contextEntries
  by_cases h : log.isEmpty
  · simp [h]
  · rw [if_neg h]
    calc ((lastSlice 6 log).filter fun a => a.agent_name ≠ name).length
        ≤ (lastSlice 6 log).length := List.length_filter_le _ _
      _ ≤ 6 := by
        unfold lastSlice
        rw [List.length_drop]
        omega

/-- The context window never contains the agent's own entries. -/
theorem contextEntries_not_own (log : List DebateArgument)
    (name : String) :
    ∀ e ∈ contextEntries log name, e.agent_name ≠ name := by
  intro e he
  unfold contextEntries at he
  by_cases h : log.isEmpty
  · simp [h] at he
  · rw [if_neg h] at he
    have := List.of_mem_filter he
    simpa using this

/-- Claim C8, amended: the context an agent's prompt is built from is
the log as of that agent's invocation — the log at round start plus the
entries appended earlier in the same round by prior agents — windowed to
the most recent six entries and excluding the agent's own entries; so at
most six entries appear and none belong to the agent itself. -/
theorem claimC8_amended (invoke : α → String → String → InvokeOutcome)
    (q : String) (now : ℚ) (r : Nat) :
    ∀ (roster : List (String × α)) (log : List DebateArgument),
      ∀ pr ∈ (roundFold invoke q now r roster log).2.2,
        pr.2.length ≤ 6 ∧ (∀ e ∈ pr.2, e.agent_name ≠ pr.1) ∧
        ∃ mid, pr.2 = contextEntries (log ++ mid) pr.1 ∧
          ∀ e ∈ mid, e.round_number = r := by
  intro roster
  induction roster with
  | nil =>
    intro log pr hpr
    simp [roundFold] at hpr
  | cons hd rest ih =>
    intro log pr hpr
    obtain ⟨name, agent⟩ := hd
    simp only [roundFold] at hpr
    cases hout : getAgentArgument (invoke agent (buildAgentContext log name) q) with
    | none =>
      rw [hout] at hpr
      simp only [List.mem_cons] at hpr
      rcases hpr with rfl | htail
      · exact ⟨contextEntries_length_le log name,
          contextEntries_not_own log name, [], by simp, by simp⟩
      · exact ih log pr htail
    | some p =>
      rw [hout] at hpr
      simp only [List.mem_cons] at hpr
      rcases hpr with rfl | htail
      · exact ⟨contextEntries_length_le log name,
          contextEntries_not_own log name, [], by simp, by simp⟩
      · obtain ⟨hlen, hown, mid, hctx, hmid⟩ :=
          ih (log ++ [mkRoundArgument name p now r]) pr htail
        refine ⟨hlen, hown, mkRoundArgument name p now r :: mid, ?_, ?_⟩
        · rw [hctx]
          simp [List.append_assoc]
        · intro e he
          rcases List.mem_cons.mp he with rfl | hm
          · rfl
          · exact hmid e hm

/-- The concrete context trace of a first round with two responding
agents: agent `a` sees nothing, agent `b` sees `a`'s argument from the
same round. -/
theorem roundContextTrace_demo :
    roundContextTrace demoInvoke demoState demoCtx2 0 =
      [("a", []),
       ("b", [mkRoundArgument "a" ⟨"alpha argument", [], none⟩ 0 1])] :=
  rfl

/-- Claim C8, counterexample.  In round 1 with an empty starting log the
context for agent `b` contains agent `a`'s entry from the same round, so
contexts are not derived only from previous rounds' entries. -/
theorem claimC8_counterexample :
    ¬ (∀ pr ∈ roundContextTrace demoInvoke demoState demoCtx2 0,
        ∀ e ∈ pr.2, e.round_number < demoState.current_round + 1) := by
  intro hall
  have hb := hall ("b",
      [mkRoundArgument "a" ⟨"alpha argument", [], none⟩ 0 1])
    (by rw [roundContextTrace_demo]; simp)
    (mkRoundArgument "a" ⟨"alpha argument", [], none⟩ 0 1)
    (List.mem_singleton_self _)
  simp [mkRoundArgument, demoState] at hb

/-- Claim C8 witness: the amended characterization applied to agent `b`
of the concrete two-agent round: its context is the windowed log at its
invocation, holds at most six entries, none its own, and the entries
beyond the round-start log all carry the current round number. -/
theorem claimC8_witness :
    (("b", [mkRoundArgument "a" ⟨"alpha argument", [], none⟩ 0 1]) ∈
      (roundFold demoInvoke "q" 0 1 demoRoster2 []).2.2) ∧
    ([mkRoundArgument "a" ⟨"alpha argument", [], none⟩ 0 1].length ≤ 6 ∧
     (∀ e ∈ [mkRoundArgument "a" ⟨"alpha argument", [], none⟩ 0 1],
       e.agent_name ≠ "b") ∧
     ∃ mid,
       [mkRoundArgument "a" ⟨"alpha argument", [], none⟩ 0 1] =
         contextEntries ([] ++ mid) "b" ∧
       ∀ e ∈ mid, e.round_number = 1) := by
  have hmem : ("b",
      [mkRoundArgument "a" ⟨"alpha argument", [], none⟩ 0 1]) ∈
      (roundFold demoInvoke "q" 0 1 demoRoster2 []).2.2 := by
    have : (roundFold demoInvoke "q" 0 1 demoRoster2 []).2.2 =
        [("a", []),
         ("b", [mkRoundArgument "a" ⟨"alpha argument", [], none⟩ 0 1])] :=
      rfl
    rw [this]
    simp
  exact ⟨hmem,
    claimC8_amended demoInvoke "q" 0 1 demoRoster2 [] _ hmem⟩

end InsightSynergy
